import Mathlib

/-!
Verification of the metric-resolution core of the nsight-compute rule set.

The definitions below are a shallow embedding of
`src/nsight_compute/RequestedMetrics.py` (the `MetricRequest` record, the
`RequestedMetricDict` dual-keyed mapping, and `RequestedMetricsParser.parse`
together with `_create_fallback_metric`), and of the two
`get_estimated_speedup` functions in `src/nsight_compute/FPInstructions.py`
and `src/nsight_compute/SpeedOfLight_Roofline.py`.

Modelling conventions:
* Python dictionaries (`UserDict` data, `aliasToName`, the parent-weight
  dict, and the `IAction` metric catalog) are association lists with
  first-match lookup and in-place update, which matches insertion-ordered
  Python dicts.
* Python exceptions that escape `parse` (a `KeyError` raised by
  `RequestedMetricDict.__setitem__` or the `ValueError` raised by
  `_create_fallback_metric`) are modelled by an error outcome carrying the
  exception message; `NvRules.raise_exception` is modelled as a distinct
  abort outcome carrying the abort message.
* Python scalars that may appear in `MetricRequest.default_value` are the
  `PyValue` type; crucially Python's `bool` is a subtype of `int`, so
  `isinstance(value, int)` is true for booleans and `True >= 0` holds.
* Floating point numbers are modelled as rationals; the claims checked here
  concern control flow and exact formula shape, not rounding.
* The number of catalog lookups performed by `RequestedMetricBuilder`
  (`metrics[name]` in its `__init__`) is recorded in the parse state, so
  that "the catalog is queried once per request" is an observable fact.
* Python's `missing_required_metrics` is a `set`; it is modelled as an
  insertion-ordered list without duplicates (`insertUnique`), which fixes
  the otherwise unspecified iteration order used by `", ".join`.
-/

/-- A Python scalar value, as far as `MetricRequest.default_value` is
concerned.  `list` stands for any value that is neither an `int` (or
`bool`), a `float` nor a `str` — e.g. an actual Python list. -/
inductive PyValue where
  | int (n : Int)
  | bool (b : Bool)
  | float (q : ℚ)
  | str (s : String)
  | list
deriving DecidableEq, Repr

/-- Value stored in a synthesized fallback metric, mirroring the three typed
setters `set_uint64`, `set_double` and `set_string` of `IMetric`. -/
inductive MetricValue where
  | uint64 (n : Nat)
  | double (q : ℚ)
  | string (s : String)
deriving DecidableEq, Repr

/-- A live metric handle.  `live` is an `IMetric` already present in the
`IAction`; `fallback` is a metric created by `IAction.add_metric`, whose
value is `none` until one of the typed setters ran. -/
inductive MetricHandle where
  | live (id : Nat)
  | fallback (name : String) (value : Option MetricValue)
deriving DecidableEq, Repr

/-- The pseudo-enum `Importance` (`OPTIONAL = 1`, `REQUIRED = 2`). -/
def Importance.OPTIONAL : Nat := 1

/-- The pseudo-enum `Importance` (`OPTIONAL = 1`, `REQUIRED = 2`). -/
def Importance.REQUIRED : Nat := 2

/-- The `MetricRequest` namedtuple.  Field defaults mirror
`defaults=(None, None, Importance.REQUIRED, 0.0, True)`.  A namedtuple
performs no validation at construction time. -/
structure MetricRequest where
  name : String
  «alias» : Option String := none
  importance : Nat := Importance.REQUIRED
  default_value : Option PyValue := some (.float 0)
  warn_when_missing : Bool := true
deriving DecidableEq, Repr

/-- The message built by `MetricNotFoundError.__init__` when no explicit
message is given. -/
def metricNotFoundMessage (name : String) (importance : Nat) : String :=
  (if importance = Importance.REQUIRED then "Required" else "Optional") ++
    " metric " ++ name ++ " could not be found."

/-- The `RequestedMetric` wrapper: requested name, underlying `IMetric`
object (possibly `None`), importance and optional alias. -/
structure RequestedMetric where
  name : String
  metric : Option MetricHandle
  importance : Nat
  «alias» : Option String
deriving DecidableEq, Repr

/-- `RequestedMetric.__init__`: the importance argument goes through
`importance or RequestedMetric._DEFAULT_IMPORTANCE`, so a falsy value
(`None` or `0`) is replaced by `Importance.REQUIRED`. -/
def RequestedMetric.make (name : String) (metric : Option MetricHandle)
    (importance : Option Nat) (al : Option String) : RequestedMetric :=
  { name := name
    metric := metric
    importance :=
      match importance with
      | none => Importance.REQUIRED
      | some 0 => Importance.REQUIRED
      | some i => i
    «alias» := al }

/-- First-match lookup in an association list (Python dict lookup). -/
def assocFind {α : Type} (l : List (String × α)) (k : String) : Option α :=
  match l with
  | [] => none
  | (k', v) :: rest => if k' = k then some v else assocFind rest k

/-- In-place update of an association list: replace the first binding of the
key, or append a new binding (Python dict assignment, insertion ordered). -/
def assocUpdate {α : Type} (l : List (String × α)) (k : String) (v : α) :
    List (String × α) :=
  match l with
  | [] => [(k, v)]
  | (k', v') :: rest =>
      if k' = k then (k, v) :: rest else (k', v') :: assocUpdate rest k v

/-- `set.add` on an insertion-ordered list without duplicates. -/
def insertUnique (l : List String) (x : String) : List String :=
  if x ∈ l then l else l ++ [x]

/-- The `IAction` metric catalog: `metrics[name]` is association-list lookup
and `add_metric(name)` appends a fresh entry. -/
abbrev Catalog := List (String × MetricHandle)

/-- The custom dict `RequestedMetricDict`: the backing `UserDict` data maps
real metric names to `RequestedMetric`s, and `aliasToName` maps aliases to
real names. -/
structure RequestedMetricDict where
  data : List (String × RequestedMetric)
  aliasToName : List (String × String)
deriving DecidableEq, Repr

/-- `RequestedMetricDict.__getitem__`: try the backing dict under the key,
then under `aliasToName[key]`; a successful lookup returns the entry's
`.metric` attribute (which may itself be `None`).  The outer `none` is the
final `raise KeyError(key)`. -/
def RequestedMetricDict.getItem (d : RequestedMetricDict) (key : String) :
    Option (Option MetricHandle) :=
  match assocFind d.data key with
  | some item => some item.metric
  | none =>
      match assocFind d.aliasToName key with
      | some name =>
          match assocFind d.data name with
          | some item => some item.metric
          | none => none
      | none => none

/-- The guard `(key != name) and (key != alias)` of
`RequestedMetricDict.__setitem__`; comparing a string against `None`
(`alias` absent) is always unequal in Python. -/
def keyMismatch (key : String) (name : String) (al : Option String) : Bool :=
  key != name &&
    (match al with
     | some a => key != a
     | none => true)

/-- `RequestedMetricDict.__setitem__`: reject a key that matches neither the
metric's name nor its alias; reject an alias already bound to a different
name; otherwise register the alias and store the item under its real name.
The error strings are the `KeyError` messages of the source. -/
def RequestedMetricDict.setItem (d : RequestedMetricDict) (key : String)
    (item : RequestedMetric) : Except String RequestedMetricDict :=
  if keyMismatch key item.name item.«alias» then
    .error "Key must match either the metric name or alias."
  else
    match item.«alias» with
    | some a =>
        match assocFind d.aliasToName a with
        | some n' =>
            if n' != item.name then
              .error ("Alias " ++ a ++ " is already used by metric " ++ key)
            else
              .ok { data := assocUpdate d.data item.name item
                    aliasToName := assocUpdate d.aliasToName a item.name }
        | none =>
            .ok { data := assocUpdate d.data item.name item
                  aliasToName := assocUpdate d.aliasToName a item.name }
    | none =>
        .ok { data := assocUpdate d.data item.name item
              aliasToName := d.aliasToName }

/-- `RequestedMetricDict.__contains__`: true if the key is a stored name or
a registered alias. -/
def RequestedMetricDict.containsKey (d : RequestedMetricDict) (key : String) :
    Bool :=
  (assocFind d.data key).isSome || (assocFind d.aliasToName key).isSome

/-- The empty `RequestedMetricDict` built by its `__init__`. -/
def RequestedMetricDict.empty : RequestedMetricDict :=
  { data := [], aliasToName := [] }

/-- The isinstance dispatch of `_create_fallback_metric`, in source order:
`isinstance(value, int) and value >= 0` (booleans are ints in Python, with
`False == 0` and `True == 1`), then `isinstance(value, float)`, then
`isinstance(value, str)`; anything else raises `ValueError`, modelled by
`none`. -/
def fallbackKind : PyValue → Option MetricValue
  | .int n => if 0 ≤ n then some (.uint64 n.toNat) else none
  | .bool b => some (.uint64 (if b then 1 else 0))
  | .float q => some (.double q)
  | .str s => some (.string s)
  | .list => none

/-- The `ValueError` message of `_create_fallback_metric`. -/
def fallbackValueError : String :=
  "Can only create fallback metric from uint, float or str."

/-- `RequestedMetricsParser._create_fallback_metric`: with no default value
it returns `None` without touching the action; otherwise it first calls
`add_metric` (so the synthesized entry is in the catalog even if the
subsequent type dispatch raises `ValueError`) and then runs the typed
setter.  Returns the catalog after the call and either the created handle
or the `ValueError` message. -/
def createFallbackMetric (catalog : Catalog) (m : MetricRequest) :
    Catalog × Except String (Option MetricHandle) :=
  match m.default_value with
  | none => (catalog, .ok none)
  | some value =>
      match fallbackKind value with
      | some mv =>
          let h := MetricHandle.fallback m.name (some mv)
          (catalog ++ [(m.name, h)], .ok (some h))
      | none =>
          (catalog ++ [(m.name, MetricHandle.fallback m.name none)],
            .error fallbackValueError)

/-- Message severities used by `parse` via `frontend.message`. -/
inductive MsgType where
  | WARNING
  | ERROR
deriving DecidableEq, Repr

/-- `RequestedMetricsParser._get_missing_optional_metric_warning`. -/
def missingOptionalWarning (name : String) : String :=
  "The optional metric " ++ name ++ " could not be found. " ++
    "Collecting it as an additional metric could enable the rule " ++
    "to provide more guidance."

/-- `RequestedMetricsParser._MISSING_REQUIRED_METRICS_MESSAGE`. -/
def missingRequiredMetricsMessage : String :=
  "Some required metrics are missing; aborted rule execution."

/-- Python `", ".join` over a list of names in iteration order. -/
def joinComma : List String → String
  | [] => ""
  | [x] => x
  | x :: y :: rest => x ++ ", " ++ joinComma (y :: rest)

/-- The abort message passed to `NvRules.raise_exception` when required
metrics are missing. -/
def abortMessage (missing : List String) : String :=
  missingRequiredMetricsMessage ++ ": " ++ joinComma missing

/-- Mutable state of one `parse` call: the result dict, the (mutable)
catalog, the messages emitted through the frontend so far, the number of
catalog lookups performed by `RequestedMetricBuilder`, and the
missing-metric bookkeeping flags. -/
structure ParseState where
  table : RequestedMetricDict
  catalog : Catalog
  messages : List (MsgType × String)
  lookups : Nat
  foundMissingRequired : Bool
  foundMissingOptional : Bool
  missingRequired : List String
deriving Repr

/-- Initial parse state. -/
def initState (catalog : Catalog) : ParseState :=
  { table := RequestedMetricDict.empty
    catalog := catalog
    messages := []
    lookups := 0
    foundMissingRequired := false
    foundMissingOptional := false
    missingRequired := [] }

/-- The assignment `parsed_metrics[metric.name] = RequestedMetric(...)` in
`parse`; a `KeyError` from `__setitem__` escapes `parse` and is returned as
the error message. -/
def insertParsed (st : ParseState) (m : MetricRequest)
    (metric : Option MetricHandle) : ParseState × Option String :=
  match RequestedMetricDict.setItem st.table m.name
      (RequestedMetric.make m.name metric (some m.importance) m.«alias») with
  | .ok table' => ({ st with table := table' }, none)
  | .error e => (st, some e)

/-- The `MetricNotFoundError` handler of `parse` for an OPTIONAL metric:
synthesize the fallback (this can raise `ValueError`, and mutates the
catalog first), insert the wrapper, and warn once per `parse` call for the
first missing optional metric with `warn_when_missing` set. -/
def stepMissingOptional (st : ParseState) (m : MetricRequest) :
    ParseState × Option String :=
  let pair := createFallbackMetric st.catalog m
  let st1 := { st with catalog := pair.1 }
  match pair.2 with
  | .error e => (st1, some e)
  | .ok fb =>
      match insertParsed st1 m fb with
      | (st2, some e) => (st2, some e)
      | (st2, none) =>
          if m.warn_when_missing && !st2.foundMissingOptional then
            ({ st2 with
                messages := st2.messages ++
                  [(MsgType.WARNING, missingOptionalWarning m.name)]
                foundMissingOptional := true }, none)
          else (st2, none)

/-- The `MetricNotFoundError` handler of `parse` for a REQUIRED metric:
record the name, emit an error-severity message, and continue. -/
def stepMissingRequired (st : ParseState) (m : MetricRequest) :
    ParseState × Option String :=
  ({ st with
      foundMissingRequired := true
      missingRequired := insertUnique st.missingRequired m.name
      messages := st.messages ++
        [(MsgType.ERROR, metricNotFoundMessage m.name m.importance)] }, none)

/-- One iteration of the request loop of `parse`: the
`RequestedMetricBuilder` performs exactly one catalog lookup; if it
succeeds the wrapper is inserted, otherwise the `MetricNotFoundError`
handler dispatches on the request's importance (an importance that is
neither OPTIONAL nor REQUIRED is silently swallowed by the `if`/`elif`). -/
def parseStep (st : ParseState) (m : MetricRequest) :
    ParseState × Option String :=
  let st0 := { st with lookups := st.lookups + 1 }
  match assocFind st0.catalog m.name with
  | some h => insertParsed st0 m (some h)
  | none =>
      if m.importance = Importance.OPTIONAL then stepMissingOptional st0 m
      else if m.importance = Importance.REQUIRED then stepMissingRequired st0 m
      else (st0, none)

/-- The request loop of `parse`; an escaping Python exception stops the
loop. -/
def parseLoop : ParseState → List MetricRequest → ParseState × Option String
  | st, [] => (st, none)
  | st, m :: rest =>
      match parseStep st m with
      | (st', some e) => (st', some e)
      | (st', none) => parseLoop st' rest

/-- Outcome of a `parse` call: a returned `RequestedMetricDict`, the abort
raised by `NvRules.raise_exception` (message plus the missing-name list the
message is joined from), or an escaping Python exception. -/
inductive ParseResult where
  | ok (table : RequestedMetricDict)
  | abortMissing (message : String) (missing : List String)
  | pyError (e : String)
deriving DecidableEq, Repr

/-- Everything observable about one `parse` call. -/
structure ParseOutput where
  result : ParseResult
  messages : List (MsgType × String)
  lookups : Nat
  catalog : Catalog
deriving Repr

/-- `RequestedMetricsParser.parse`: loop over the requests, then abort via
`NvRules.raise_exception` if any required metric was missing, else return
the dict. -/
def parse (catalog : Catalog) (requested_metrics : List MetricRequest) :
    ParseOutput :=
  let out := parseLoop (initState catalog) requested_metrics
  match out.2 with
  | some e =>
      { result := .pyError e
        messages := out.1.messages
        lookups := out.1.lookups
        catalog := out.1.catalog }
  | none =>
      if out.1.foundMissingRequired then
        { result := .abortMissing (abortMessage out.1.missingRequired)
            out.1.missingRequired
          messages := out.1.messages
          lookups := out.1.lookups
          catalog := out.1.catalog }
      else
        { result := .ok out.1.table
          messages := out.1.messages
          lookups := out.1.lookups
          catalog := out.1.catalog }

/-- Number of warning-severity messages in a message list. -/
def warningCount (msgs : List (MsgType × String)) : Nat :=
  (msgs.filter (fun p => p.1 == MsgType.WARNING)).length

/-- `NvRules.IFrontend.SpeedupType_LOCAL` / `SpeedupType_GLOBAL`. -/
inductive SpeedupType where
  | LOCAL
  | GLOBAL
deriving DecidableEq, Repr

/-- `improvement_local` of `FPInstructions.get_estimated_speedup`:
`0.5 * (non_fused_instructions / all_instructions)`. -/
def fpImprovementLocal (fused nonFused : ℚ) : ℚ :=
  0.5 * (nonFused / (nonFused + fused))

/-- `FPInstructions.get_estimated_speedup`: weigh the local improvement by
the parent-supplied FP pipeline utilization when it is available (`is not
None`), otherwise report a local percentage. -/
def fpGetEstimatedSpeedup (pipelineUtilizationPct : Option ℚ)
    (fused nonFused : ℚ) : SpeedupType × ℚ :=
  let improvementLocal := fpImprovementLocal fused nonFused
  match pipelineUtilizationPct with
  | some u => (SpeedupType.GLOBAL, improvementLocal * u)
  | none => (SpeedupType.LOCAL, improvementLocal * 100)

/-- `improvement_local` of `SpeedOfLight_Roofline.get_estimated_speedup`. -/
def rooflineImprovementLocal (achievedFp32 achievedFp64 peakFp32 peakFp64 : ℚ) :
    ℚ :=
  (achievedFp64 / (achievedFp32 + achievedFp64)) * (1 - peakFp64 / peakFp32)

/-- The parent-weight key looked up by
`SpeedOfLight_Roofline.get_estimated_speedup`. -/
def fp64UtilizationKey : String := "fp64_pipeline_utilization_pct"

/-- `SpeedOfLight_Roofline.get_estimated_speedup`: early exit with
`(LOCAL, 0)` when peak FP64 exceeds peak FP32; otherwise weigh the local
improvement by the parent weight when the key is present, else report a
local percentage. -/
def rooflineGetEstimatedSpeedup (parentWeights : List (String × ℚ))
    (achievedFp32 achievedFp64 peakFp32 peakFp64 : ℚ) : SpeedupType × ℚ :=
  if peakFp64 / peakFp32 > 1 then (SpeedupType.LOCAL, 0)
  else
    let improvementLocal :=
      rooflineImprovementLocal achievedFp32 achievedFp64 peakFp32 peakFp64
    match assocFind parentWeights fp64UtilizationKey with
    | some u => (SpeedupType.GLOBAL, improvementLocal * u)
    | none => (SpeedupType.LOCAL, improvementLocal * 100)

/-- Spec-side predicate ("type-valid fallback value"): a non-negative
integer, a float, or a string.  Stated from the specification's words, to
be compared with the source's `fallbackKind` dispatch. -/
def TypeValidFallback (v : PyValue) : Prop :=
  (∃ n : Int, v = .int n ∧ 0 ≤ n) ∨ (∃ q : ℚ, v = .float q) ∨
    (∃ s : String, v = .str s)

/-- Spec-side relation ("the resolved value equals the fallback value"):
the stored metric value and the requested Python scalar agree. -/
def MetricValueMatches : MetricValue → PyValue → Prop
  | .uint64 k, .int n => (k : Int) = n
  | .double q, .float q' => q = q'
  | .string s, .str s' => s = s'
  | _, _ => False

/-- Invariant tying the number of emitted warnings to the
`found_missing_optional_metrics` flag of `parse`. -/
def WarnInv (st : ParseState) : Prop :=
  warningCount st.messages ≤ (if st.foundMissingOptional then 1 else 0)

/-! ### Association-list lemmas -/

theorem assocFind_assocUpdate_self {α : Type} (l : List (String × α)) (k : String) (v : α) :
    assocFind (assocUpdate l k v) k = some v := by
  induction l with
  | nil => simp [assocFind, assocUpdate]
  | cons p rest ih =>
      obtain ⟨k', v'⟩ := p
      by_cases h : k' = k <;> simp [assocFind, assocUpdate, h, ih]

theorem assocFind_assocUpdate_ne {α : Type} (l : List (String × α)) (k k' : String) (v : α)
    (h : k ≠ k') : assocFind (assocUpdate l k v) k' = assocFind l k' := by
  induction l with
  | nil => simp [assocFind, assocUpdate, h]
  | cons p rest ih =>
      obtain ⟨k₀, v₀⟩ := p
      by_cases h0 : k₀ = k <;> simp [assocFind, assocUpdate, h0, h, ih]

theorem assocUpdate_assocUpdate_self {α : Type} (l : List (String × α)) (k : String) (v w : α) :
    assocUpdate (assocUpdate l k v) k w = assocUpdate l k w := by
  induction l with
  | nil => simp [assocUpdate]
  | cons p rest ih =>
      obtain ⟨k₀, v₀⟩ := p
      by_cases h0 : k₀ = k <;> simp [assocUpdate, h0, ih]

theorem assocFind_append_of_none {α : Type} (l l' : List (String × α)) (k : String)
    (h : assocFind l k = none) : assocFind (l ++ l') k = assocFind l' k := by
  induction l with
  | nil => simp
  | cons p rest ih =>
      obtain ⟨k₀, v₀⟩ := p
      by_cases h0 : k₀ = k
      · simp [assocFind, h0] at h
      · simp [assocFind, h0] at h ⊢
        exact ih h

theorem assocFind_append_of_some {α : Type} (l l' : List (String × α)) (k : String) (v : α)
    (h : assocFind l k = some v) : assocFind (l ++ l') k = some v := by
  induction l with
  | nil => simp [assocFind] at h
  | cons p rest ih =>
      obtain ⟨k₀, v₀⟩ := p
      by_cases h0 : k₀ = k
      · simp [assocFind, h0] at h ⊢
        exact h
      · simp [assocFind, h0] at h ⊢
        exact ih h

theorem mem_insertUnique_self (l : List String) (x : String) : x ∈ insertUnique l x := by
  unfold insertUnique
  split <;> simp_all

theorem mem_insertUnique_of_mem (l : List String) (x y : String) (h : y ∈ l) :
    y ∈ insertUnique l x := by
  unfold insertUnique
  split <;> simp_all

/-! ### The join used in the abort message -/

theorem joinComma_mem_decomp (l : List String) (x : String) (h : x ∈ l) :
    ∃ p q : List Char, (joinComma l).data = p ++ x.data ++ q := by
  induction l with
  | nil => simp at h
  | cons y rest ih =>
      cases rest with
      | nil =>
          simp at h
          exact ⟨[], [], by simp [joinComma, h]⟩
      | cons z rest' =>
          rcases List.mem_cons.mp h with h1 | h2
          · refine ⟨[], (", " ++ joinComma (z :: rest')).data, ?_⟩
            simp [joinComma, h1, String.data_append]
          · obtain ⟨p, q, hpq⟩ := ih h2
            refine ⟨(y ++ ", ").data ++ p, q, ?_⟩
            simp [joinComma, String.data_append, hpq]

theorem abortMessage_mem_decomp (missing : List String) (x : String) (h : x ∈ missing) :
    ∃ p q : List Char, (abortMessage missing).data = p ++ x.data ++ q := by
  obtain ⟨p, q, hpq⟩ := joinComma_mem_decomp missing x h
  refine ⟨(missingRequiredMetricsMessage ++ ": ").data ++ p, q, ?_⟩
  simp [abortMessage, String.data_append, hpq]

/-! ### `__setitem__` characterization -/

theorem setItem_ok_eq (d : RequestedMetricDict) (key : String) (item : RequestedMetric)
    (d' : RequestedMetricDict) (h : RequestedMetricDict.setItem d key item = .ok d') :
    d'.data = assocUpdate d.data item.name item ∧
    ((item.«alias» = none ∧ d'.aliasToName = d.aliasToName) ∨
      (∃ a, item.«alias» = some a ∧
        d'.aliasToName = assocUpdate d.aliasToName a item.name)) := by
  unfold RequestedMetricDict.setItem at h
  split at h
  · exact absurd h (by simp)
  · split at h
    next a ha =>
      split at h
      next n' hn' =>
        split at h
        · exact absurd h (by simp)
        · simp only [Except.ok.injEq] at h
          subst h
          exact ⟨rfl, Or.inr ⟨a, ha, rfl⟩⟩
      next hn' =>
        simp only [Except.ok.injEq] at h
        subst h
        exact ⟨rfl, Or.inr ⟨a, ha, rfl⟩⟩
    next ha =>
      simp only [Except.ok.injEq] at h
      subst h
      exact ⟨rfl, Or.inl ⟨ha, rfl⟩⟩

/-! ### `insertParsed` lemmas -/

theorem insertParsed_fields (st : ParseState) (m : MetricRequest)
    (fb : Option MetricHandle) :
    (insertParsed st m fb).1.catalog = st.catalog ∧
    (insertParsed st m fb).1.messages = st.messages ∧
    (insertParsed st m fb).1.lookups = st.lookups ∧
    (insertParsed st m fb).1.foundMissingRequired = st.foundMissingRequired ∧
    (insertParsed st m fb).1.foundMissingOptional = st.foundMissingOptional ∧
    (insertParsed st m fb).1.missingRequired = st.missingRequired := by
  unfold insertParsed
  split <;> simp_all

theorem insertParsed_error_state (st : ParseState) (m : MetricRequest)
    (fb : Option MetricHandle) (st' : ParseState) (e : String)
    (h : insertParsed st m fb = (st', some e)) : st' = st := by
  unfold insertParsed at h
  split at h <;> simp_all

theorem insertParsed_none_table (st : ParseState) (m : MetricRequest)
    (fb : Option MetricHandle) (st' : ParseState)
    (h : insertParsed st m fb = (st', none)) :
    st'.table.data = assocUpdate st.table.data m.name
      (RequestedMetric.make m.name fb (some m.importance) m.«alias») ∧
    ((m.«alias» = none ∧ st'.table.aliasToName = st.table.aliasToName) ∨
      (∃ a, m.«alias» = some a ∧
        st'.table.aliasToName = assocUpdate st.table.aliasToName a m.name)) := by
  unfold insertParsed at h
  split at h
  next table' heq =>
    have := setItem_ok_eq _ _ _ _ heq
    simp only [Prod.mk.injEq] at h
    obtain ⟨h1, -⟩ := h
    subst h1
    simpa [RequestedMetric.make] using this
  next e heq => simp at h

@[simp] theorem insertParsed_fst_catalog (st : ParseState) (m : MetricRequest)
    (fb : Option MetricHandle) : (insertParsed st m fb).1.catalog = st.catalog :=
  (insertParsed_fields st m fb).1

@[simp] theorem insertParsed_fst_messages (st : ParseState) (m : MetricRequest)
    (fb : Option MetricHandle) : (insertParsed st m fb).1.messages = st.messages :=
  (insertParsed_fields st m fb).2.1

@[simp] theorem insertParsed_fst_lookups (st : ParseState) (m : MetricRequest)
    (fb : Option MetricHandle) : (insertParsed st m fb).1.lookups = st.lookups :=
  (insertParsed_fields st m fb).2.2.1

@[simp] theorem insertParsed_fst_fmr (st : ParseState) (m : MetricRequest)
    (fb : Option MetricHandle) :
    (insertParsed st m fb).1.foundMissingRequired = st.foundMissingRequired :=
  (insertParsed_fields st m fb).2.2.2.1

@[simp] theorem insertParsed_fst_fmo (st : ParseState) (m : MetricRequest)
    (fb : Option MetricHandle) :
    (insertParsed st m fb).1.foundMissingOptional = st.foundMissingOptional :=
  (insertParsed_fields st m fb).2.2.2.2.1

@[simp] theorem insertParsed_fst_missing (st : ParseState) (m : MetricRequest)
    (fb : Option MetricHandle) :
    (insertParsed st m fb).1.missingRequired = st.missingRequired :=
  (insertParsed_fields st m fb).2.2.2.2.2

@[simp] theorem stepMissingOptional_fst_lookups (st : ParseState) (m : MetricRequest) :
    (stepMissingOptional st m).1.lookups = st.lookups := by
  simp only [stepMissingOptional]
  split
  · rfl
  · split
    next st2 e heq =>
        have h2 := congrArg Prod.fst heq
        simp only at h2
        rw [← h2]
        simp
    next st2 heq =>
        have h2 := congrArg Prod.fst heq
        simp only at h2
        split <;> simp [← h2]

@[simp] theorem stepMissingOptional_fst_fmr (st : ParseState) (m : MetricRequest) :
    (stepMissingOptional st m).1.foundMissingRequired = st.foundMissingRequired := by
  simp only [stepMissingOptional]
  split
  · rfl
  · split
    next st2 e heq =>
        have h2 := congrArg Prod.fst heq
        simp only at h2
        rw [← h2]
        simp
    next st2 heq =>
        have h2 := congrArg Prod.fst heq
        simp only at h2
        split <;> simp [← h2]

@[simp] theorem stepMissingOptional_fst_missing (st : ParseState) (m : MetricRequest) :
    (stepMissingOptional st m).1.missingRequired = st.missingRequired := by
  simp only [stepMissingOptional]
  split
  · rfl
  · split
    next st2 e heq =>
        have h2 := congrArg Prod.fst heq
        simp only at h2
        rw [← h2]
        simp
    next st2 heq =>
        have h2 := congrArg Prod.fst heq
        simp only at h2
        split <;> simp [← h2]

/-! ### `_create_fallback_metric` lemmas -/

theorem createFallbackMetric_find (cat : Catalog) (m : MetricRequest) (n : String)
    (h : m.name ≠ n) :
    assocFind (createFallbackMetric cat m).1 n = assocFind cat n := by
  unfold createFallbackMetric
  split
  · rfl
  · split
    all_goals
      cases hf : assocFind cat n with
      | some v => simp [assocFind_append_of_some _ _ _ _ hf, hf]
      | none => simp [assocFind_append_of_none _ _ _ hf, assocFind, h, hf]

theorem createFallbackMetric_ok (cat : Catalog) (m : MetricRequest)
    (fb : Option MetricHandle) (h : (createFallbackMetric cat m).2 = .ok fb) :
    (m.default_value = none ∧ fb = none) ∨
    (∃ v mv, m.default_value = some v ∧ fallbackKind v = some mv ∧
      fb = some (MetricHandle.fallback m.name (some mv))) := by
  unfold createFallbackMetric at h
  split at h
  next hdv => simp_all
  next v hdv =>
    split at h
    next mv hmv =>
        simp only [Except.ok.injEq] at h
        exact Or.inr ⟨v, mv, hdv, hmv, h.symm⟩
    next hmv => simp at h

theorem createFallbackMetric_error (cat : Catalog) (m : MetricRequest) (e : String)
    (h : (createFallbackMetric cat m).2 = .error e) :
    e = fallbackValueError ∧
      ∃ v, m.default_value = some v ∧ fallbackKind v = none := by
  unfold createFallbackMetric at h
  split at h
  next hdv => simp_all
  next v hdv =>
    split at h
    next mv hmv => simp at h
    next hmv =>
        simp only [Except.error.injEq] at h
        exact ⟨h.symm, v, hdv, hmv⟩

theorem stepMissingOptional_catalog_find (st : ParseState) (m : MetricRequest)
    (n : String) (h : m.name ≠ n) :
    assocFind (stepMissingOptional st m).1.catalog n = assocFind st.catalog n := by
  simp only [stepMissingOptional]
  split
  · simpa using createFallbackMetric_find st.catalog m n h
  · split
    next st2 e heq =>
        have h2 := congrArg Prod.fst heq
        simp only at h2
        rw [← h2]
        simpa using createFallbackMetric_find st.catalog m n h
    next st2 heq =>
        have h2 := congrArg Prod.fst heq
        simp only at h2
        split <;> simp only [← h2, insertParsed_fst_catalog] <;>
          simpa using createFallbackMetric_find st.catalog m n h

theorem insertParsed_data_find_ne (st : ParseState) (m : MetricRequest)
    (fb : Option MetricHandle) (n : String) (h : n ≠ m.name) :
    assocFind (insertParsed st m fb).1.table.data n = assocFind st.table.data n := by
  unfold insertParsed
  split
  next table' heq =>
    obtain ⟨h1, -⟩ := setItem_ok_eq _ _ _ _ heq
    simp only [RequestedMetric.make] at h1
    simp [h1, assocFind_assocUpdate_ne _ _ _ _ (Ne.symm h)]
  next e heq => rfl

theorem insertParsed_alias_find_ne (st : ParseState) (m : MetricRequest)
    (fb : Option MetricHandle) (k : String) (h : m.«alias» ≠ some k) :
    assocFind (insertParsed st m fb).1.table.aliasToName k =
      assocFind st.table.aliasToName k := by
  unfold insertParsed
  split
  next table' heq =>
    obtain ⟨-, h2⟩ := setItem_ok_eq _ _ _ _ heq
    simp only [RequestedMetric.make] at h2
    rcases h2 with ⟨-, h3⟩ | ⟨a, ha, h3⟩
    · simp [h3]
    · have : a ≠ k := by
        intro hk
        exact h (hk ▸ ha)
      simp [h3, assocFind_assocUpdate_ne _ _ _ _ this]
  next e heq => rfl

theorem stepMissingOptional_data_find_ne (st : ParseState) (m : MetricRequest)
    (n : String) (h : n ≠ m.name) :
    assocFind (stepMissingOptional st m).1.table.data n =
      assocFind st.table.data n := by
  simp only [stepMissingOptional]
  split
  · rfl
  next fb heq =>
    split
    next st2 e heq2 =>
        have h2 := congrArg Prod.fst heq2
        simp only at h2
        rw [← h2]
        exact insertParsed_data_find_ne _ _ _ _ h
    next st2 heq2 =>
        have h2 := congrArg Prod.fst heq2
        simp only at h2
        split <;> simp only [← h2] <;> exact insertParsed_data_find_ne _ _ _ _ h

theorem stepMissingOptional_alias_find_ne (st : ParseState) (m : MetricRequest)
    (k : String) (h : m.«alias» ≠ some k) :
    assocFind (stepMissingOptional st m).1.table.aliasToName k =
      assocFind st.table.aliasToName k := by
  simp only [stepMissingOptional]
  split
  · rfl
  next fb heq =>
    split
    next st2 e heq2 =>
        have h2 := congrArg Prod.fst heq2
        simp only at h2
        rw [← h2]
        exact insertParsed_alias_find_ne _ _ _ _ h
    next st2 heq2 =>
        have h2 := congrArg Prod.fst heq2
        simp only at h2
        split <;> simp only [← h2] <;> exact insertParsed_alias_find_ne _ _ _ _ h

/-! ### `parseStep` lemmas -/

theorem parseStep_lookups (st : ParseState) (m : MetricRequest) :
    (parseStep st m).1.lookups = st.lookups + 1 := by
  simp only [parseStep]
  split
  · simp
  · split
    · simp
    · split
      · simp [stepMissingRequired]
      · simp

theorem parseStep_catalog_find (st : ParseState) (m : MetricRequest) (n : String)
    (h : m.importance = Importance.OPTIONAL → m.name ≠ n) :
    assocFind (parseStep st m).1.catalog n = assocFind st.catalog n := by
  simp only [parseStep]
  split
  · simp
  · split
    next himp => exact stepMissingOptional_catalog_find _ _ _ (h himp)
    · split
      · simp [stepMissingRequired]
      · simp

theorem parseStep_missing_mono (st : ParseState) (m : MetricRequest) (x : String)
    (h : x ∈ st.missingRequired) : x ∈ (parseStep st m).1.missingRequired := by
  simp only [parseStep]
  split
  · simpa using h
  · split
    · simpa using h
    · split
      · dsimp only [stepMissingRequired]
        exact mem_insertUnique_of_mem _ _ _ h
      · simpa using h

theorem parseStep_fmr_mono (st : ParseState) (m : MetricRequest)
    (h : st.foundMissingRequired = true) :
    (parseStep st m).1.foundMissingRequired = true := by
  simp only [parseStep]
  split
  · simpa using h
  · split
    · simpa using h
    · split
      · rfl
      · simpa using h

theorem parseStep_required_missing (st : ParseState) (m : MetricRequest)
    (h1 : m.importance = Importance.REQUIRED)
    (h2 : assocFind st.catalog m.name = none) :
    (parseStep st m).2 = none ∧
    m.name ∈ (parseStep st m).1.missingRequired ∧
    (parseStep st m).1.foundMissingRequired = true := by
  have hc : assocFind (ParseState.catalog { st with lookups := st.lookups + 1 })
      m.name = none := h2
  simp only [parseStep, hc, h1, Importance.OPTIONAL, Importance.REQUIRED]
  norm_num [stepMissingRequired]
  exact mem_insertUnique_self _ _

theorem parseStep_data_find_ne (st : ParseState) (m : MetricRequest) (n : String)
    (h : n ≠ m.name) :
    assocFind (parseStep st m).1.table.data n = assocFind st.table.data n := by
  simp only [parseStep]
  split
  · exact insertParsed_data_find_ne _ _ _ _ h
  · split
    · exact stepMissingOptional_data_find_ne _ _ _ h
    · split
      · rfl
      · rfl

theorem parseStep_alias_find_ne (st : ParseState) (m : MetricRequest) (k : String)
    (h : m.«alias» ≠ some k) :
    assocFind (parseStep st m).1.table.aliasToName k =
      assocFind st.table.aliasToName k := by
  simp only [parseStep]
  split
  · exact insertParsed_alias_find_ne _ _ _ _ h
  · split
    · exact stepMissingOptional_alias_find_ne _ _ _ h
    · split
      · rfl
      · rfl

theorem warningCount_append (msgs : List (MsgType × String)) (t : MsgType) (s : String) :
    warningCount (msgs ++ [(t, s)]) =
      warningCount msgs + (if t = MsgType.WARNING then 1 else 0) := by
  cases t <;> simp [warningCount, List.filter_append]

theorem stepMissingOptional_warnInv (st : ParseState) (m : MetricRequest)
    (h : WarnInv st) : WarnInv (stepMissingOptional st m).1 := by
  simp only [stepMissingOptional]
  split
  · exact h
  next fb heq =>
    split
    next st2 e heq2 =>
        have h3 := insertParsed_error_state _ _ _ _ _ heq2
        unfold WarnInv at h ⊢
        rw [h3]
        exact h
    next st2 heq2 =>
        have h2 := congrArg Prod.fst heq2
        simp only at h2
        have hmsg : st2.messages = st.messages := by
          rw [← h2]
          simp
        have hfmo : st2.foundMissingOptional = st.foundMissingOptional := by
          rw [← h2]
          simp
        split
        next hcond =>
            have hf : st2.foundMissingOptional = false := by
              simp only [Bool.and_eq_true, Bool.not_eq_eq_eq_not, Bool.not_true] at hcond
              exact hcond.2
            have hst : st.foundMissingOptional = false := hfmo ▸ hf
            unfold WarnInv at h ⊢
            rw [hst] at h
            simp only [Bool.false_eq_true, if_false] at h
            dsimp only
            simp only [warningCount_append, hmsg, if_pos rfl, if_true]
            omega
        next hcond =>
            unfold WarnInv at h ⊢
            dsimp only
            rw [hmsg, hfmo]
            exact h

theorem parseStep_warnInv (st : ParseState) (m : MetricRequest)
    (h : WarnInv st) : WarnInv (parseStep st m).1 := by
  simp only [parseStep]
  split
  · unfold WarnInv at h ⊢
    simp only [insertParsed_fst_messages, insertParsed_fst_fmo]
    exact h
  · split
    · exact stepMissingOptional_warnInv _ _ h
    · split
      · unfold WarnInv at h ⊢
        dsimp only [stepMissingRequired]
        simp only [warningCount_append]
        simp only [show (MsgType.ERROR = MsgType.WARNING) = False by simp, if_false]
        exact h
      · exact h

theorem stepMissingOptional_entry (st : ParseState) (m : MetricRequest)
    (st' : ParseState) (h : stepMissingOptional st m = (st', none)) :
    ∃ fb, (createFallbackMetric st.catalog m).2 = .ok fb ∧
      assocFind st'.table.data m.name =
        some (RequestedMetric.make m.name fb (some m.importance) m.«alias») ∧
      (∀ a, m.«alias» = some a →
        assocFind st'.table.aliasToName a = some m.name) := by
  simp only [stepMissingOptional] at h
  split at h
  · simp at h
  next fb heq =>
    split at h
    next st2 e heq2 => simp at h
    next st2 heq2 =>
        obtain ⟨hd, hal⟩ := insertParsed_none_table _ _ _ _ heq2
        have htab : st'.table = st2.table := by
          split at h
          · injection h with h1 h2
            rw [← h1]
          · injection h with h1 h2
            rw [← h1]
        refine ⟨fb, heq, ?_, ?_⟩
        · rw [htab, hd]
          exact assocFind_assocUpdate_self _ _ _
        · intro a ha
          rcases hal with ⟨hnone, -⟩ | ⟨a', ha', h3⟩
          · rw [hnone] at ha
            exact absurd ha (by simp)
          · rw [ha'] at ha
            injection ha with ha2
            subst ha2
            rw [htab, h3]
            exact assocFind_assocUpdate_self _ _ _

theorem parseStep_entry (st : ParseState) (m : MetricRequest) (st' : ParseState)
    (hstep : parseStep st m = (st', none))
    (himp : m.importance = Importance.OPTIONAL ∨ m.importance = Importance.REQUIRED)
    (hnm : ¬(m.importance = Importance.REQUIRED ∧ assocFind st.catalog m.name = none)) :
    ∃ item : RequestedMetric,
      item.name = m.name ∧ item.«alias» = m.«alias» ∧
      assocFind st'.table.data m.name = some item ∧
      (∀ a, m.«alias» = some a →
        assocFind st'.table.aliasToName a = some m.name) ∧
      (∀ h0, assocFind st.catalog m.name = some h0 → item.metric = some h0) ∧
      (assocFind st.catalog m.name = none → m.default_value = none →
        item.metric = none) ∧
      (∀ v mv, assocFind st.catalog m.name = none → m.default_value = some v →
        fallbackKind v = some mv →
        item.metric = some (MetricHandle.fallback m.name (some mv))) := by
  simp only [parseStep] at hstep
  split at hstep
  next h0 heq =>
    have heq' : assocFind st.catalog m.name = some h0 := heq
    obtain ⟨hd, hal⟩ := insertParsed_none_table _ _ _ _ hstep
    refine ⟨RequestedMetric.make m.name (some h0) (some m.importance) m.«alias»,
      rfl, rfl, ?_, ?_, ?_, ?_, ?_⟩
    · rw [hd]
      exact assocFind_assocUpdate_self _ _ _
    · intro a ha
      rcases hal with ⟨hnone, -⟩ | ⟨a', ha', h3⟩
      · rw [hnone] at ha
        exact absurd ha (by simp)
      · rw [ha'] at ha
        injection ha with ha2
        subst ha2
        rw [h3]
        exact assocFind_assocUpdate_self _ _ _
    · intro h1 hfind
      rw [heq'] at hfind
      injection hfind with hfind2
      rw [hfind2]
      rfl
    · intro hfind
      rw [heq'] at hfind
      exact absurd hfind (by simp)
    · intro v mv hfind
      rw [heq'] at hfind
      exact absurd hfind (by simp)
  next heq =>
    have heq' : assocFind st.catalog m.name = none := heq
    split at hstep
    next himp1 =>
      obtain ⟨fb, hfb, hfind, halias⟩ := stepMissingOptional_entry _ _ _ hstep
      refine ⟨RequestedMetric.make m.name fb (some m.importance) m.«alias»,
        rfl, rfl, hfind, halias, ?_, ?_, ?_⟩
      · intro h1 hfind1
        rw [heq'] at hfind1
        exact absurd hfind1 (by simp)
      · intro _ hdv
        rcases createFallbackMetric_ok _ _ _ hfb with ⟨-, hfb2⟩ | ⟨v, mv, hv, -, -⟩
        · rw [hfb2]
          rfl
        · rw [hdv] at hv
          exact absurd hv (by simp)
      · intro v mv _ hdv hkind
        rcases createFallbackMetric_ok _ _ _ hfb with ⟨hdv2, -⟩ | ⟨v', mv', hv', hk', hfb2⟩
        · rw [hdv] at hdv2
          exact absurd hdv2 (by simp)
        · rw [hdv] at hv'
          injection hv' with hv2
          subst hv2
          rw [hkind] at hk'
          injection hk' with hk2
          subst hk2
          rw [hfb2]
          rfl
    next himp1 =>
      split at hstep
      next himp2 => exact absurd ⟨himp2, heq'⟩ hnm
      next himp2 =>
          rcases himp with h | h
          · exact absurd h himp1
          · exact absurd h himp2

/-! ### `parseLoop` lemmas -/

theorem parseLoop_split (l1 l2 : List MetricRequest) (st st' : ParseState)
    (h : parseLoop st (l1 ++ l2) = (st', none)) :
    ∃ st1, parseLoop st l1 = (st1, none) ∧ parseLoop st1 l2 = (st', none) := by
  induction l1 generalizing st with
  | nil => exact ⟨st, rfl, h⟩
  | cons m rest ih =>
      simp only [List.cons_append, parseLoop] at h
      split at h
      next st2 e heq => simp at h
      next st2 heq =>
        obtain ⟨st1, h1, h2⟩ := ih st2 h
        refine ⟨st1, ?_, h2⟩
        simp only [parseLoop]
        rw [heq]
        exact h1

theorem parseLoop_missing_mono (reqs : List MetricRequest) (st : ParseState)
    (x : String) (h : x ∈ st.missingRequired) :
    x ∈ (parseLoop st reqs).1.missingRequired := by
  induction reqs generalizing st with
  | nil => exact h
  | cons m rest ih =>
      simp only [parseLoop]
      split
      next st2 e heq =>
        have h2 := parseStep_missing_mono st m x h
        rw [heq] at h2
        exact h2
      next st2 heq =>
        apply ih
        have h2 := parseStep_missing_mono st m x h
        rw [heq] at h2
        exact h2

theorem parseLoop_fmr_mono (reqs : List MetricRequest) (st : ParseState)
    (h : st.foundMissingRequired = true) :
    (parseLoop st reqs).1.foundMissingRequired = true := by
  induction reqs generalizing st with
  | nil => exact h
  | cons m rest ih =>
      simp only [parseLoop]
      split
      next st2 e heq =>
        have h2 := parseStep_fmr_mono st m h
        rw [heq] at h2
        exact h2
      next st2 heq =>
        apply ih
        have h2 := parseStep_fmr_mono st m h
        rw [heq] at h2
        exact h2

theorem parseLoop_warnInv (reqs : List MetricRequest) (st : ParseState)
    (h : WarnInv st) : WarnInv (parseLoop st reqs).1 := by
  induction reqs generalizing st with
  | nil => exact h
  | cons m rest ih =>
      simp only [parseLoop]
      split
      next st2 e heq =>
        have h2 := parseStep_warnInv st m h
        rw [heq] at h2
        exact h2
      next st2 heq =>
        apply ih
        have h2 := parseStep_warnInv st m h
        rw [heq] at h2
        exact h2

theorem parseLoop_catalog_find (reqs : List MetricRequest) (st : ParseState)
    (n : String)
    (h : ∀ r ∈ reqs, r.importance = Importance.OPTIONAL → r.name ≠ n) :
    assocFind (parseLoop st reqs).1.catalog n = assocFind st.catalog n := by
  induction reqs generalizing st with
  | nil => rfl
  | cons m rest ih =>
      simp only [parseLoop]
      split
      next st2 e heq =>
        have h2 := parseStep_catalog_find st m n (h m (List.mem_cons_self m rest))
        rw [heq] at h2
        exact h2
      next st2 heq =>
        have h2 := parseStep_catalog_find st m n (h m (List.mem_cons_self m rest))
        rw [heq] at h2
        rw [ih st2 (fun r hr => h r (List.mem_cons_of_mem m hr)), h2]

theorem parseLoop_data_find_ne (reqs : List MetricRequest) (st : ParseState)
    (n : String) (h : ∀ r ∈ reqs, r.name ≠ n) :
    assocFind (parseLoop st reqs).1.table.data n = assocFind st.table.data n := by
  induction reqs generalizing st with
  | nil => rfl
  | cons m rest ih =>
      simp only [parseLoop]
      split
      next st2 e heq =>
        have h2 := parseStep_data_find_ne st m n
          (Ne.symm (h m (List.mem_cons_self m rest)))
        rw [heq] at h2
        exact h2
      next st2 heq =>
        have h2 := parseStep_data_find_ne st m n
          (Ne.symm (h m (List.mem_cons_self m rest)))
        rw [heq] at h2
        rw [ih st2 (fun r hr => h r (List.mem_cons_of_mem m hr)), h2]

theorem parseLoop_alias_find_ne (reqs : List MetricRequest) (st : ParseState)
    (k : String) (h : ∀ r ∈ reqs, r.«alias» ≠ some k) :
    assocFind (parseLoop st reqs).1.table.aliasToName k =
      assocFind st.table.aliasToName k := by
  induction reqs generalizing st with
  | nil => rfl
  | cons m rest ih =>
      simp only [parseLoop]
      split
      next st2 e heq =>
        have h2 := parseStep_alias_find_ne st m k (h m (List.mem_cons_self m rest))
        rw [heq] at h2
        exact h2
      next st2 heq =>
        have h2 := parseStep_alias_find_ne st m k (h m (List.mem_cons_self m rest))
        rw [heq] at h2
        rw [ih st2 (fun r hr => h r (List.mem_cons_of_mem m hr)), h2]

theorem parseLoop_lookups (reqs : List MetricRequest) (st st' : ParseState)
    (h : parseLoop st reqs = (st', none)) :
    st'.lookups = st.lookups + reqs.length := by
  induction reqs generalizing st with
  | nil =>
      injection h with h1 h2
      rw [← h1]
      rfl
  | cons m rest ih =>
      simp only [parseLoop] at h
      split at h
      next st2 e heq => simp at h
      next st2 heq =>
        have h2 := parseStep_lookups st m
        rw [heq] at h2
        have h3 := ih st2 h
        rw [h3, h2, List.length_cons]
        omega

theorem parseLoop_required_recorded (reqs : List MetricRequest) (st st' : ParseState)
    (h : parseLoop st reqs = (st', none)) (r : MetricRequest) (hr : r ∈ reqs)
    (himp : r.importance = Importance.REQUIRED)
    (hnames : ∀ s ∈ reqs, s.importance = Importance.OPTIONAL → s.name ≠ r.name)
    (hmiss : assocFind st.catalog r.name = none) :
    r.name ∈ st'.missingRequired ∧ st'.foundMissingRequired = true := by
  induction reqs generalizing st with
  | nil => simp at hr
  | cons m rest ih =>
      simp only [parseLoop] at h
      split at h
      next st2 e heq => simp at h
      next st2 heq =>
        rcases List.mem_cons.mp hr with h1 | h1
        · subst h1
          obtain ⟨-, hmem, hf⟩ := parseStep_required_missing st r himp hmiss
          rw [heq] at hmem hf
          constructor
          · have h2 := parseLoop_missing_mono rest st2 r.name hmem
            rw [h] at h2
            exact h2
          · have h2 := parseLoop_fmr_mono rest st2 hf
            rw [h] at h2
            exact h2
        · have hcat : assocFind st2.catalog r.name = none := by
            have h2 := parseStep_catalog_find st m r.name
              (fun hopt => hnames m (List.mem_cons_self m rest) hopt)
            rw [heq] at h2
            rw [h2]
            exact hmiss
          exact ih st2 h h1 (fun s hs => hnames s (List.mem_cons_of_mem m hs)) hcat

/-! ### `parse` unfolding lemmas -/

theorem parse_ok_elim (cat : Catalog) (reqs : List MetricRequest)
    (t : RequestedMetricDict) (h : (parse cat reqs).result = .ok t) :
    ∃ st', parseLoop (initState cat) reqs = (st', none) ∧
      st'.foundMissingRequired = false ∧ t = st'.table := by
  simp only [parse] at h
  cases hout : parseLoop (initState cat) reqs with
  | mk st1 e =>
      rw [hout] at h
      cases e with
      | some e0 => simp at h
      | none =>
          simp only at h
          split at h
          · simp at h
          next hf =>
            simp only [ParseResult.ok.injEq] at h
            exact ⟨st1, rfl, by simpa using hf, h.symm⟩

theorem parse_noerror_loop (cat : Catalog) (reqs : List MetricRequest)
    (h : ∀ e, (parse cat reqs).result ≠ .pyError e) :
    (parseLoop (initState cat) reqs).2 = none := by
  cases hout : parseLoop (initState cat) reqs with
  | mk st1 e =>
      cases e with
      | none => rfl
      | some e0 =>
          exfalso
          apply h e0
          simp only [parse]
          rw [hout]

theorem parse_abort_of_fmr (cat : Catalog) (reqs : List MetricRequest)
    (st' : ParseState) (h : parseLoop (initState cat) reqs = (st', none))
    (hf : st'.foundMissingRequired = true) :
    (parse cat reqs).result =
      .abortMissing (abortMessage st'.missingRequired) st'.missingRequired := by
  simp only [parse]
  rw [h]
  simp [hf]

theorem parse_messages_eq (cat : Catalog) (reqs : List MetricRequest) :
    (parse cat reqs).messages = (parseLoop (initState cat) reqs).1.messages := by
  simp only [parse]
  cases hout : parseLoop (initState cat) reqs with
  | mk st1 e =>
      cases e with
      | some e0 => rfl
      | none =>
          simp only
          split <;> rfl

theorem parse_lookups_eq (cat : Catalog) (reqs : List MetricRequest) :
    (parse cat reqs).lookups = (parseLoop (initState cat) reqs).1.lookups := by
  simp only [parse]
  cases hout : parseLoop (initState cat) reqs with
  | mk st1 e =>
      cases e with
      | some e0 => rfl
      | none =>
          simp only
          split <;> rfl

/-! ### Claim theorems -/

/-- C1: for every request batch (with required and optional names not
overlapping, and in which no unrelated Python exception escapes) in which at
least one REQUIRED metric is absent from the catalog, `parse` does not
return a resolution table: it aborts with a resolution failure whose
message names every missing required metric, all names joined. -/
theorem parse_missing_required_aborts_naming_all
    (cat : Catalog) (reqs : List MetricRequest)
    (hdisj : ∀ r ∈ reqs, ∀ s ∈ reqs, r.importance = Importance.REQUIRED →
      s.importance = Importance.OPTIONAL → s.name ≠ r.name)
    (hrun : ∀ e, (parse cat reqs).result ≠ ParseResult.pyError e)
    (hmiss : ∃ r ∈ reqs, r.importance = Importance.REQUIRED ∧
      assocFind cat r.name = none) :
    ∃ missing : List String,
      (parse cat reqs).result =
        ParseResult.abortMissing (abortMessage missing) missing ∧
      (∀ r ∈ reqs, r.importance = Importance.REQUIRED →
        assocFind cat r.name = none →
        r.name ∈ missing ∧
        ∃ p q : List Char, (abortMessage missing).data = p ++ r.name.data ++ q) ∧
      (∀ t, (parse cat reqs).result ≠ ParseResult.ok t) := by
  have hloop2 := parse_noerror_loop cat reqs hrun
  cases hout : parseLoop (initState cat) reqs with
  | mk st1 e =>
      rw [hout] at hloop2
      simp only at hloop2
      subst hloop2
      obtain ⟨r, hrmem, hrimp, hrfind⟩ := hmiss
      have hrec := parseLoop_required_recorded reqs (initState cat) st1 hout r
        hrmem hrimp (fun s hs hsopt => hdisj r hrmem s hs hrimp hsopt) hrfind
      have habort := parse_abort_of_fmr cat reqs st1 hout hrec.2
      refine ⟨st1.missingRequired, habort, ?_, ?_⟩
      · intro r' hm hi hf
        have hrec' := parseLoop_required_recorded reqs (initState cat) st1 hout r'
          hm hi (fun s hs hsopt => hdisj r' hm s hs hi hsopt) hf
        exact ⟨hrec'.1, abortMessage_mem_decomp _ _ hrec'.1⟩
      · intro t ht
        rw [habort] at ht
        exact ParseResult.noConfusion ht

/-- Witness for C1 at a concrete batch with two missing required metrics. -/
theorem parse_missing_required_aborts_naming_all_witness :
    ∃ missing : List String,
      (parse ([] : Catalog) [{ name := "metric_a" }, { name := "metric_b" }]).result =
        ParseResult.abortMissing (abortMessage missing) missing ∧
      (∀ r ∈ ([{ name := "metric_a" }, { name := "metric_b" }] :
          List MetricRequest),
        r.importance = Importance.REQUIRED →
        assocFind ([] : Catalog) r.name = none →
        r.name ∈ missing ∧
        ∃ p q : List Char, (abortMessage missing).data = p ++ r.name.data ++ q) ∧
      (∀ t, (parse ([] : Catalog) [{ name := "metric_a" }, { name := "metric_b" }]).result ≠
        ParseResult.ok t) :=
  parse_missing_required_aborts_naming_all _ _ (by decide)
    (fun _ h => nomatch h) (by decide)

/-- C4: a single `parse` call emits at most one missing-optional-metric
warning in total, however many optional metrics are missing; and an
OPTIONAL request with no fallback value whose metric is absent resolves to
a present-but-`None` handle instead of raising. -/
theorem parse_optional_warning_batched_and_absent (cat : Catalog)
    (reqs : List MetricRequest) :
    warningCount (parse cat reqs).messages ≤ 1 ∧
    (∀ table r, (parse cat reqs).result = ParseResult.ok table → r ∈ reqs →
      List.Pairwise (fun a b => a.name ≠ b.name) reqs →
      r.importance = Importance.OPTIONAL → r.default_value = none →
      assocFind cat r.name = none →
      RequestedMetricDict.getItem table r.name = some none) := by
  constructor
  · rw [parse_messages_eq]
    have hinv := parseLoop_warnInv reqs (initState cat)
      (by unfold WarnInv warningCount initState; simp)
    unfold WarnInv at hinv
    split at hinv <;> omega
  · intro table r hok hr hpair himp hdv hmiss
    obtain ⟨st', hloop, hfmr, htab⟩ := parse_ok_elim cat reqs table hok
    subst htab
    obtain ⟨pre, post, hsplit⟩ := List.append_of_mem hr
    subst hsplit
    rw [List.pairwise_append] at hpair
    obtain ⟨hpair1, hpair2, hpair3⟩ := hpair
    rw [List.pairwise_cons] at hpair2
    obtain ⟨hpair4, -⟩ := hpair2
    obtain ⟨st1, hpre, hrest⟩ := parseLoop_split pre (r :: post)
      (initState cat) st' hloop
    simp only [parseLoop] at hrest
    split at hrest
    next st2 e heq => simp at hrest
    next st2 heq =>
      have hcat1 : assocFind st1.catalog r.name = none := by
        have h2 := parseLoop_catalog_find pre (initState cat) r.name
          (fun s hs _ => hpair3 s hs r (List.mem_cons_self r post))
        rw [hpre] at h2
        rw [h2]
        exact hmiss
      obtain ⟨item, hname, halias, hfind, -, -, hmetnone, -⟩ :=
        parseStep_entry st1 r st2 heq (Or.inl himp)
          (by
            rintro ⟨h2, -⟩
            rw [himp] at h2
            exact absurd h2 (by decide))
      have hmet : item.metric = none := hmetnone hcat1 hdv
      have hfinal : assocFind st'.table.data r.name = some item := by
        have h2 := parseLoop_data_find_ne post st2 r.name
          (fun s hs => (hpair4 s hs).symm)
        rw [hrest] at h2
        rw [h2]
        exact hfind
      unfold RequestedMetricDict.getItem
      rw [hfinal]
      simp [hmet]

/-- Witness for C4 at a concrete batch with two missing optional metrics. -/
theorem parse_optional_warning_batched_and_absent_witness :
    warningCount (parse ([] : Catalog)
      [{ name := "o1", importance := 1, default_value := none },
       { name := "o2", importance := 1, default_value := none }]).messages ≤ 1 ∧
    RequestedMetricDict.getItem
      { data := [("o1", { name := "o1", metric := none, importance := 1,
                          «alias» := none }),
                 ("o2", { name := "o2", metric := none, importance := 1,
                          «alias» := none })], aliasToName := [] } "o1" =
      some none := by
  constructor
  · exact (parse_optional_warning_batched_and_absent _ _).1
  · exact (parse_optional_warning_batched_and_absent ([] : Catalog)
      [{ name := "o1", importance := 1, default_value := none },
       { name := "o2", importance := 1, default_value := none }]).2
      { data := [("o1", { name := "o1", metric := none, importance := 1,
                          «alias» := none }),
                 ("o2", { name := "o2", metric := none, importance := 1,
                          «alias» := none })], aliasToName := [] }
      { name := "o1", importance := 1, default_value := none }
      (by decide) (by decide) (by decide) (by decide) (by decide) (by decide)

/-- C2: for a well-formed batch (each importance OPTIONAL or REQUIRED,
pairwise distinct names, pairwise distinct aliases, and no alias equal to a
request name) whose `parse` call returns a table, every request's name and
(when given) alias both resolve to the identical underlying metric handle,
and containment holds for both keys. -/
theorem parse_table_dual_key_lookup (cat : Catalog) (reqs : List MetricRequest)
    (table : RequestedMetricDict)
    (himp : ∀ r ∈ reqs, r.importance = Importance.OPTIONAL ∨
      r.importance = Importance.REQUIRED)
    (hpair : List.Pairwise (fun a b => a.name ≠ b.name ∧
      (a.«alias» = none ∨ a.«alias» ≠ b.«alias»)) reqs)
    (hdisj : ∀ s ∈ reqs, ∀ r ∈ reqs, r.«alias» ≠ some s.name)
    (hok : (parse cat reqs).result = ParseResult.ok table) :
    ∀ r ∈ reqs, ∃ m : Option MetricHandle,
      RequestedMetricDict.getItem table r.name = some m ∧
      RequestedMetricDict.containsKey table r.name = true ∧
      ∀ a, r.«alias» = some a →
        RequestedMetricDict.getItem table a = some m ∧
        RequestedMetricDict.containsKey table a = true := by
  intro r hr
  obtain ⟨st', hloop, hfmr, htab⟩ := parse_ok_elim _ _ _ hok
  subst htab
  obtain ⟨pre, post, hsplit⟩ := List.append_of_mem hr
  subst hsplit
  rw [List.pairwise_append] at hpair
  obtain ⟨-, hpair2, -⟩ := hpair
  rw [List.pairwise_cons] at hpair2
  obtain ⟨hpair4, -⟩ := hpair2
  obtain ⟨st1, hpre, hrest⟩ := parseLoop_split pre (r :: post)
    (initState cat) st' hloop
  simp only [parseLoop] at hrest
  split at hrest
  next st2 e heq => simp at hrest
  next st2 heq =>
    have hnm : ¬(r.importance = Importance.REQUIRED ∧
        assocFind st1.catalog r.name = none) := by
      rintro ⟨h2, h3⟩
      obtain ⟨-, -, hf⟩ := parseStep_required_missing st1 r h2 h3
      rw [heq] at hf
      have h4 := parseLoop_fmr_mono post st2 hf
      rw [hrest] at h4
      rw [hfmr] at h4
      exact Bool.noConfusion h4
    obtain ⟨item, hname, halias, hfind, haliasreg, -, -, -⟩ :=
      parseStep_entry st1 r st2 heq (himp r hr) hnm
    have hfinal : assocFind st'.table.data r.name = some item := by
      have h2 := parseLoop_data_find_ne post st2 r.name
        (fun s hs => ((hpair4 s hs).1).symm)
      rw [hrest] at h2
      rw [h2]
      exact hfind
    refine ⟨item.metric, ?_, ?_, ?_⟩
    · unfold RequestedMetricDict.getItem
      simp only [hfinal]
    · unfold RequestedMetricDict.containsKey
      simp [hfinal]
    · intro a ha
      have hreg : assocFind st2.table.aliasToName a = some r.name :=
        haliasreg a ha
      have hreg' : assocFind st'.table.aliasToName a = some r.name := by
        have h2 := parseLoop_alias_find_ne post st2 a
          (fun s hs => by
            rcases (hpair4 s hs).2 with h3 | h3
            · rw [ha] at h3
              exact absurd h3 (by simp)
            · intro hcon
              rw [ha, hcon] at h3
              exact h3 rfl)
        rw [hrest] at h2
        rw [h2]
        exact hreg
      have hdata_a : assocFind st'.table.data a = none := by
        have h2 := parseLoop_data_find_ne (pre ++ r :: post) (initState cat) a
          (fun s hs => by
            intro hcon
            apply hdisj s hs r hr
            rw [← hcon] at ha
            exact ha)
        rw [hloop] at h2
        rw [h2]
        rfl
      constructor
      · unfold RequestedMetricDict.getItem
        simp only [hdata_a, hreg', hfinal]
      · unfold RequestedMetricDict.containsKey
        simp [hreg']

/-- Witness for C2 at a concrete one-request batch with an alias. -/
theorem parse_table_dual_key_lookup_witness :
    ∃ m : Option MetricHandle,
      RequestedMetricDict.getItem
        { data := [("x", { name := "x", metric := some (MetricHandle.live 0),
                           importance := 2, «alias» := some "ax" })],
          aliasToName := [("ax", "x")] } "x" = some m ∧
      RequestedMetricDict.containsKey
        { data := [("x", { name := "x", metric := some (MetricHandle.live 0),
                           importance := 2, «alias» := some "ax" })],
          aliasToName := [("ax", "x")] } "x" = true ∧
      ∀ a, (({ name := "x", «alias» := some "ax" } : MetricRequest)).«alias» =
          some a →
        RequestedMetricDict.getItem
          { data := [("x", { name := "x", metric := some (MetricHandle.live 0),
                             importance := 2, «alias» := some "ax" })],
            aliasToName := [("ax", "x")] } a = some m ∧
        RequestedMetricDict.containsKey
          { data := [("x", { name := "x", metric := some (MetricHandle.live 0),
                             importance := 2, «alias» := some "ax" })],
            aliasToName := [("ax", "x")] } a = true :=
  parse_table_dual_key_lookup [("x", MetricHandle.live 0)]
    [{ name := "x", «alias» := some "ax" }]
    { data := [("x", { name := "x", metric := some (MetricHandle.live 0),
                       importance := 2, «alias» := some "ax" })],
      aliasToName := [("ax", "x")] }
    (by decide) (by decide) (by decide) (by decide)
    { name := "x", «alias» := some "ax" } (by decide)

theorem stepMissingOptional_no_error (st : ParseState) (m : MetricRequest)
    (v : PyValue) (mv : MetricValue) (hdv : m.default_value = some v)
    (hkind : fallbackKind v = some mv)
    (halias : ∀ a, m.«alias» = some a →
      assocFind st.table.aliasToName a = none ∨
      assocFind st.table.aliasToName a = some m.name) :
    (stepMissingOptional st m).2 = none := by
  have hcf : (createFallbackMetric st.catalog m).2 =
      .ok (some (MetricHandle.fallback m.name (some mv))) := by
    simp [createFallbackMetric, hdv, hkind]
  simp only [stepMissingOptional]
  split
  next e heq =>
    rw [hcf] at heq
    exact absurd heq (by simp)
  next fb heq =>
    have hins : (insertParsed { st with catalog := (createFallbackMetric st.catalog m).1 }
        m fb).2 = none := by
      unfold insertParsed
      unfold RequestedMetricDict.setItem
      have hkm : keyMismatch m.name
          (RequestedMetric.make m.name fb (some m.importance) m.«alias»).name
          (RequestedMetric.make m.name fb (some m.importance) m.«alias»).«alias» =
          false := by
        simp [keyMismatch, RequestedMetric.make]
      rw [hkm]
      simp only [Bool.false_eq_true, if_false]
      cases hma : m.«alias» with
      | none => simp [RequestedMetric.make, hma]
      | some a =>
          simp only [RequestedMetric.make, hma]
          rcases halias a hma with h2 | h2
          · rw [h2]
          · rw [h2]
            simp
    split
    next st2 e heq2 =>
        rw [heq2] at hins
        exact absurd hins (by simp)
    next st2 heq2 =>
        split <;> rfl

theorem parse_single_optional_ok (cat : Catalog) (r : MetricRequest)
    (v : PyValue) (mv : MetricValue) (himp : r.importance = Importance.OPTIONAL)
    (hdv : r.default_value = some v) (hkind : fallbackKind v = some mv)
    (hmiss : assocFind cat r.name = none) :
    ∃ table, (parse cat [r]).result = ParseResult.ok table ∧
      RequestedMetricDict.getItem table r.name =
        some (some (MetricHandle.fallback r.name (some mv))) := by
  have hc : assocFind
      (ParseState.catalog { initState cat with lookups := (initState cat).lookups + 1 })
      r.name = none := hmiss
  have hstep : parseStep (initState cat) r =
      stepMissingOptional { initState cat with lookups := (initState cat).lookups + 1 } r := by
    simp only [parseStep, hc, himp]
    simp
  have hno := stepMissingOptional_no_error
    { initState cat with lookups := (initState cat).lookups + 1 } r v mv hdv hkind
    (fun a _ => Or.inl rfl)
  cases hso : stepMissingOptional
      { initState cat with lookups := (initState cat).lookups + 1 } r with
  | mk stx ex =>
      rw [hso] at hno
      simp only at hno
      subst hno
      have hfmr : stx.foundMissingRequired = false := by
        have h2 := stepMissingOptional_fst_fmr
          { initState cat with lookups := (initState cat).lookups + 1 } r
        rw [hso] at h2
        exact h2
      obtain ⟨fb, hfb, hfind, -⟩ := stepMissingOptional_entry _ _ _ hso
      have hfbv : fb = some (MetricHandle.fallback r.name (some mv)) := by
        have hcf : (createFallbackMetric
            (ParseState.catalog { initState cat with lookups := (initState cat).lookups + 1 })
            r).2 = .ok (some (MetricHandle.fallback r.name (some mv))) := by
          simp [createFallbackMetric, hdv, hkind]
        rw [hcf] at hfb
        injection hfb with h2
        exact h2.symm
      refine ⟨stx.table, ?_, ?_⟩
      · simp only [parse, parseLoop]
        rw [hstep, hso]
        simp [hfmr]
      · unfold RequestedMetricDict.getItem
        rw [hfind]
        rw [hfbv]
        rfl

theorem typeValid_fallbackKind (v : PyValue) (h : TypeValidFallback v) :
    ∃ mv, fallbackKind v = some mv ∧ MetricValueMatches mv v := by
  rcases h with ⟨n, rfl, hn⟩ | ⟨q, rfl⟩ | ⟨s, rfl⟩
  · refine ⟨.uint64 n.toNat, by simp [fallbackKind, hn], ?_⟩
    show (n.toNat : Int) = n
    exact Int.toNat_of_nonneg hn
  · exact ⟨.double q, rfl, rfl⟩
  · exact ⟨.string s, rfl, rfl⟩

/-- C3: a BEST_EFFORT (OPTIONAL) request carrying a type-valid fallback
(non-negative integer, float, or string) whose name is absent from the
catalog resolves to a synthesized handle whose value equals the fallback:
this holds for the request inside any batch (with pairwise-distinct names)
whose `parse` call returns a table, and a single-request batch indeed
returns a table. -/
theorem parse_optional_fallback_value (cat : Catalog) (reqs : List MetricRequest) :
    (∀ table r v, (parse cat reqs).result = ParseResult.ok table → r ∈ reqs →
      List.Pairwise (fun a b => a.name ≠ b.name) reqs →
      r.importance = Importance.OPTIONAL → r.default_value = some v →
      TypeValidFallback v → assocFind cat r.name = none →
      ∃ mv, fallbackKind v = some mv ∧
        RequestedMetricDict.getItem table r.name =
          some (some (MetricHandle.fallback r.name (some mv))) ∧
        MetricValueMatches mv v) ∧
    (∀ r v, reqs = [r] → r.importance = Importance.OPTIONAL →
      r.default_value = some v → TypeValidFallback v →
      assocFind cat r.name = none →
      ∃ table, (parse cat reqs).result = ParseResult.ok table ∧
        ∃ mv, fallbackKind v = some mv ∧
          RequestedMetricDict.getItem table r.name =
            some (some (MetricHandle.fallback r.name (some mv))) ∧
          MetricValueMatches mv v) := by
  constructor
  · intro table r v hok hr hpair himp hdv hvalid hmiss
    obtain ⟨mv, hkind, hmatch⟩ := typeValid_fallbackKind v hvalid
    refine ⟨mv, hkind, ?_, hmatch⟩
    obtain ⟨st', hloop, hfmr, htab⟩ := parse_ok_elim cat reqs table hok
    subst htab
    obtain ⟨pre, post, hsplit⟩ := List.append_of_mem hr
    subst hsplit
    rw [List.pairwise_append] at hpair
    obtain ⟨-, hpair2, hpair3⟩ := hpair
    rw [List.pairwise_cons] at hpair2
    obtain ⟨hpair4, -⟩ := hpair2
    obtain ⟨st1, hpre, hrest⟩ := parseLoop_split pre (r :: post)
      (initState cat) st' hloop
    simp only [parseLoop] at hrest
    split at hrest
    next st2 e heq => simp at hrest
    next st2 heq =>
      have hcat1 : assocFind st1.catalog r.name = none := by
        have h2 := parseLoop_catalog_find pre (initState cat) r.name
          (fun s hs _ => hpair3 s hs r (List.mem_cons_self r post))
        rw [hpre] at h2
        rw [h2]
        exact hmiss
      obtain ⟨item, hname, halias, hfind, -, -, -, hmetfb⟩ :=
        parseStep_entry st1 r st2 heq (Or.inl himp)
          (by
            rintro ⟨h2, -⟩
            rw [himp] at h2
            exact absurd h2 (by decide))
      have hmet : item.metric = some (MetricHandle.fallback r.name (some mv)) :=
        hmetfb v mv hcat1 hdv hkind
      have hfinal : assocFind st'.table.data r.name = some item := by
        have h2 := parseLoop_data_find_ne post st2 r.name
          (fun s hs => (hpair4 s hs).symm)
        rw [hrest] at h2
        rw [h2]
        exact hfind
      unfold RequestedMetricDict.getItem
      rw [hfinal]
      simp [hmet]
  · intro r v hreqs himp hdv hvalid hmiss
    subst hreqs
    obtain ⟨mv, hkind, hmatch⟩ := typeValid_fallbackKind v hvalid
    obtain ⟨table, hok, hget⟩ :=
      parse_single_optional_ok cat r v mv himp hdv hkind hmiss
    exact ⟨table, hok, mv, hkind, hget, hmatch⟩

/-- Witness for C3: a single optional request with float fallback `0.0`
against an empty catalog. -/
theorem parse_optional_fallback_value_witness :
    ∃ table,
      (parse ([] : Catalog)
        [{ name := "y", importance := 1,
           default_value := some (PyValue.float 0) }]).result =
        ParseResult.ok table ∧
      ∃ mv, fallbackKind (PyValue.float 0) = some mv ∧
        RequestedMetricDict.getItem table
          ({ name := "y", importance := 1,
             default_value := some (PyValue.float 0) } : MetricRequest).name =
          some (some (MetricHandle.fallback
            ({ name := "y", importance := 1,
               default_value := some (PyValue.float 0) } : MetricRequest).name
            (some mv))) ∧
        MetricValueMatches mv (PyValue.float 0) :=
  (parse_optional_fallback_value ([] : Catalog)
    [{ name := "y", importance := 1,
       default_value := some (PyValue.float 0) }]).2
    { name := "y", importance := 1, default_value := some (PyValue.float 0) }
    (PyValue.float 0) rfl (by decide) (by decide)
    (Or.inr (Or.inl ⟨0, rfl⟩)) (by decide)

/-- C10: a boolean fallback value is accepted, not rejected as malformed:
for an OPTIONAL request with fallback `False` (or `True`) whose metric is
missing, the resolver synthesizes an unsigned-integer fallback entry with
value 0 (or 1), because Python's `bool` passes the
`isinstance(value, int) and value >= 0` check. -/
theorem parse_boolean_fallback_accepted (cat : Catalog) (name : String)
    (al : Option String) (w : Bool) (b : Bool)
    (hmiss : assocFind cat name = none) :
    fallbackKind (PyValue.bool b) =
      some (MetricValue.uint64 (if b then 1 else 0)) ∧
    ∃ table,
      (parse cat [{ name := name, «alias» := al,
                    importance := Importance.OPTIONAL,
                    default_value := some (PyValue.bool b),
                    warn_when_missing := w }]).result = ParseResult.ok table ∧
      RequestedMetricDict.getItem table name =
        some (some (MetricHandle.fallback name
          (some (MetricValue.uint64 (if b then 1 else 0))))) := by
  refine ⟨rfl, ?_⟩
  exact parse_single_optional_ok cat
    { name := name, «alias» := al, importance := Importance.OPTIONAL,
      default_value := some (PyValue.bool b), warn_when_missing := w }
    (PyValue.bool b) (MetricValue.uint64 (if b then 1 else 0)) rfl rfl rfl hmiss

/-- Witness for C10 with fallback `True` against an empty catalog. -/
theorem parse_boolean_fallback_accepted_witness :
    fallbackKind (PyValue.bool true) =
      some (MetricValue.uint64 (if true then 1 else 0)) ∧
    ∃ table,
      (parse ([] : Catalog) [{ name := "g", «alias» := none,
                               importance := Importance.OPTIONAL,
                               default_value := some (PyValue.bool true),
                               warn_when_missing := false }]).result =
        ParseResult.ok table ∧
      RequestedMetricDict.getItem table "g" =
        some (some (MetricHandle.fallback "g"
          (some (MetricValue.uint64 (if true then 1 else 0))))) :=
  parse_boolean_fallback_accepted ([] : Catalog) "g" none false true (by decide)

/-- C5: inserting two entries with different underlying names but the same
alias fails at insertion time with a collision error (never silently
overwriting the earlier binding), whereas re-inserting the same
(name, alias) pair succeeds idempotently. -/
theorem setItem_alias_collision_and_idempotent (d d1 : RequestedMetricDict)
    (i1 i2 : RequestedMetric) (a : String)
    (h1 : i1.«alias» = some a) (h2 : i2.«alias» = some a)
    (hne : i2.name ≠ i1.name)
    (hd1 : RequestedMetricDict.setItem d i1.name i1 = .ok d1) :
    RequestedMetricDict.setItem d1 i2.name i2 =
      .error ("Alias " ++ a ++ " is already used by metric " ++ i2.name) ∧
    RequestedMetricDict.setItem d1 i1.name i1 = .ok d1 := by
  obtain ⟨hdata, hal⟩ := setItem_ok_eq _ _ _ _ hd1
  have halias1 : d1.aliasToName = assocUpdate d.aliasToName a i1.name := by
    rcases hal with ⟨hnone, -⟩ | ⟨a', ha', h3⟩
    · rw [h1] at hnone
      exact absurd hnone (by simp)
    · rw [h1] at ha'
      injection ha' with ha2
      rw [ha2]
      exact h3
  have hfind : assocFind d1.aliasToName a = some i1.name := by
    rw [halias1]
    exact assocFind_assocUpdate_self _ _ _
  constructor
  · have hkm : keyMismatch i2.name i2.name i2.«alias» = false := by
      simp [keyMismatch]
    unfold RequestedMetricDict.setItem
    rw [hkm]
    simp only [Bool.false_eq_true, if_false]
    rw [h2]
    simp only [hfind]
    have hb : (i1.name != i2.name) = true := by
      simp [bne_iff_ne]
      exact Ne.symm hne
    rw [hb]
    simp
  · have hkm : keyMismatch i1.name i1.name i1.«alias» = false := by
      simp [keyMismatch]
    unfold RequestedMetricDict.setItem
    rw [hkm]
    simp only [Bool.false_eq_true, if_false]
    rw [h1]
    simp only [hfind]
    have hb : (i1.name != i1.name) = false := by simp
    rw [hb]
    simp only [Bool.false_eq_true, if_false, Except.ok.injEq]
    cases d1 with
    | mk dd da =>
        simp only at hdata halias1
        rw [hdata, halias1, assocUpdate_assocUpdate_self, assocUpdate_assocUpdate_self]

/-- Witness for C5 at concrete entries sharing the alias `"a"`. -/
theorem setItem_alias_collision_and_idempotent_witness :
    RequestedMetricDict.setItem
      { data := [("n1", { name := "n1", metric := none, importance := 2,
                          «alias» := some "a" })],
        aliasToName := [("a", "n1")] } "n2"
      { name := "n2", metric := none, importance := 2, «alias» := some "a" } =
      .error ("Alias " ++ "a" ++ " is already used by metric " ++ "n2") ∧
    RequestedMetricDict.setItem
      { data := [("n1", { name := "n1", metric := none, importance := 2,
                          «alias» := some "a" })],
        aliasToName := [("a", "n1")] } "n1"
      { name := "n1", metric := none, importance := 2, «alias» := some "a" } =
      .ok { data := [("n1", { name := "n1", metric := none, importance := 2,
                              «alias» := some "a" })],
            aliasToName := [("a", "n1")] } :=
  setItem_alias_collision_and_idempotent
    RequestedMetricDict.empty
    { data := [("n1", { name := "n1", metric := none, importance := 2,
                        «alias» := some "a" })],
      aliasToName := [("a", "n1")] }
    { name := "n1", metric := none, importance := 2, «alias» := some "a" }
    { name := "n2", metric := none, importance := 2, «alias» := some "a" }
    "a" (by decide) (by decide) (by decide) (by rfl)

/-- C9: an insertion whose key matches neither the metric's name nor its
alias is rejected with an error; every accepted insertion stores the entry
under the metric's real name and leaves every other key of the backing
dict untouched, so no value is ever bound to a foreign key. -/
theorem setItem_key_discipline :
    (∀ (d : RequestedMetricDict) (key : String) (item : RequestedMetric),
      key ≠ item.name → (∀ a, item.«alias» = some a → key ≠ a) →
      RequestedMetricDict.setItem d key item =
        .error "Key must match either the metric name or alias.") ∧
    (∀ (d : RequestedMetricDict) (key : String) (item : RequestedMetric)
      (d' : RequestedMetricDict),
      RequestedMetricDict.setItem d key item = .ok d' →
      assocFind d'.data item.name = some item ∧
      (∀ k, k ≠ item.name → assocFind d'.data k = assocFind d.data k)) := by
  constructor
  · intro d key item hname halias
    have hkm : keyMismatch key item.name item.«alias» = true := by
      unfold keyMismatch
      cases hma : item.«alias» with
      | none => simp [hname]
      | some a => simp [hname, halias a hma]
    unfold RequestedMetricDict.setItem
    rw [hkm]
    simp
  · intro d key item d' h
    obtain ⟨hdata, -⟩ := setItem_ok_eq _ _ _ _ h
    rw [hdata]
    exact ⟨assocFind_assocUpdate_self _ _ _,
      fun k hk => assocFind_assocUpdate_ne _ _ _ _ (Ne.symm hk)⟩

/-- Witness for C9: a mismatched key is rejected and an accepted insertion
lands under the real name. -/
theorem setItem_key_discipline_witness :
    RequestedMetricDict.setItem RequestedMetricDict.empty "other"
      { name := "n", metric := none, importance := 2, «alias» := none } =
      .error "Key must match either the metric name or alias." ∧
    (assocFind
      ({ data := [("n", { name := "n", metric := none, importance := 2,
                          «alias» := none })], aliasToName := [] } :
        RequestedMetricDict).data "n" =
      some { name := "n", metric := none, importance := 2, «alias» := none } ∧
    (∀ k, k ≠ "n" →
      assocFind
        ({ data := [("n", { name := "n", metric := none, importance := 2,
                            «alias» := none })], aliasToName := [] } :
          RequestedMetricDict).data k =
        assocFind (RequestedMetricDict.empty).data k)) :=
  ⟨setItem_key_discipline.1 RequestedMetricDict.empty "other"
    { name := "n", metric := none, importance := 2, «alias» := none }
    (by decide) (by decide),
   setItem_key_discipline.2 RequestedMetricDict.empty "n"
    { name := "n", metric := none, importance := 2, «alias» := none }
    { data := [("n", { name := "n", metric := none, importance := 2,
                       «alias» := none })], aliasToName := [] }
    (by rfl)⟩

/-- C6 counterexample: in the roofline estimator, with the weighting input
available (`fp64_pipeline_utilization_pct ↦ 50`) but peak FP64 exceeding
peak FP32, the returned estimate is `(LOCAL, 0)`, not GLOBAL — refuting the
claim that availability of the weighting input always yields a GLOBAL
estimate equal to the local fraction times the weight. -/
theorem roofline_speedup_local_despite_weight_counterexample :
    assocFind [(fp64UtilizationKey, (50 : ℚ))] fp64UtilizationKey = some 50 ∧
    rooflineGetEstimatedSpeedup [(fp64UtilizationKey, (50 : ℚ))] 1 1 1 2 =
      (SpeedupType.LOCAL, 0) ∧
    (rooflineGetEstimatedSpeedup [(fp64UtilizationKey, (50 : ℚ))] 1 1 1 2).1 ≠
      SpeedupType.GLOBAL := by
  refine ⟨rfl, ?_, ?_⟩
  · unfold rooflineGetEstimatedSpeedup
    norm_num
  · unfold rooflineGetEstimatedSpeedup
    norm_num
    decide

/-- C6 (amended): when the weighting input is available the estimate is
GLOBAL and equals the local improvement fraction times the weighting input,
and when it is absent the estimate is LOCAL and equals the local fraction
times 100 — never a blend — except that the roofline estimator returns
`(LOCAL, 0)` whenever peak FP64 exceeds peak FP32, regardless of the
weighting input. -/
theorem speedup_classification_amended :
    (∀ (u f n : ℚ), fpGetEstimatedSpeedup (some u) f n =
      (SpeedupType.GLOBAL, fpImprovementLocal f n * u)) ∧
    (∀ (f n : ℚ), fpGetEstimatedSpeedup none f n =
      (SpeedupType.LOCAL, fpImprovementLocal f n * 100)) ∧
    (∀ (w : List (String × ℚ)) (a32 a64 p32 p64 u : ℚ), ¬(p64 / p32 > 1) →
      assocFind w fp64UtilizationKey = some u →
      rooflineGetEstimatedSpeedup w a32 a64 p32 p64 =
        (SpeedupType.GLOBAL, rooflineImprovementLocal a32 a64 p32 p64 * u)) ∧
    (∀ (w : List (String × ℚ)) (a32 a64 p32 p64 : ℚ), ¬(p64 / p32 > 1) →
      assocFind w fp64UtilizationKey = none →
      rooflineGetEstimatedSpeedup w a32 a64 p32 p64 =
        (SpeedupType.LOCAL, rooflineImprovementLocal a32 a64 p32 p64 * 100)) ∧
    (∀ (w : List (String × ℚ)) (a32 a64 p32 p64 : ℚ), p64 / p32 > 1 →
      rooflineGetEstimatedSpeedup w a32 a64 p32 p64 =
        (SpeedupType.LOCAL, 0)) := by
  refine ⟨fun u f n => rfl, fun f n => rfl, ?_, ?_, ?_⟩
  · intro w a32 a64 p32 p64 u hpk hw
    unfold rooflineGetEstimatedSpeedup
    rw [if_neg hpk, hw]
  · intro w a32 a64 p32 p64 hpk hw
    unfold rooflineGetEstimatedSpeedup
    rw [if_neg hpk, hw]
  · intro w a32 a64 p32 p64 hpk
    unfold rooflineGetEstimatedSpeedup
    rw [if_pos hpk]

/-- Witness for the amended C6 at concrete inputs. -/
theorem speedup_classification_amended_witness :
    fpGetEstimatedSpeedup (some 50) 3 1 =
      (SpeedupType.GLOBAL, fpImprovementLocal 3 1 * 50) ∧
    rooflineGetEstimatedSpeedup [(fp64UtilizationKey, (50 : ℚ))] 1 1 2 1 =
      (SpeedupType.GLOBAL, rooflineImprovementLocal 1 1 2 1 * 50) ∧
    rooflineGetEstimatedSpeedup ([] : List (String × ℚ)) 1 1 1 2 =
      (SpeedupType.LOCAL, 0) :=
  ⟨speedup_classification_amended.1 50 3 1,
   speedup_classification_amended.2.2.1 [(fp64UtilizationKey, (50 : ℚ))]
     1 1 2 1 50 (by norm_num) rfl,
   speedup_classification_amended.2.2.2.2 ([] : List (String × ℚ))
     1 1 1 2 (by norm_num)⟩

/-- C7 counterexample: a batch requesting the same name twice (with
different aliases) is not resolved idempotently: the catalog is queried
twice, no duplicate is rejected, and the second request's wrapper (carrying
the second alias) has overwritten the first in the returned table. -/
theorem parse_duplicate_name_counterexample :
    (parse [("m", MetricHandle.live 0)]
      [{ name := "m", «alias» := some "a1" },
       { name := "m", «alias» := some "a2" }]).lookups = 2 ∧
    (parse [("m", MetricHandle.live 0)]
      [{ name := "m", «alias» := some "a1" },
       { name := "m", «alias» := some "a2" }]).result =
      ParseResult.ok
        { data := [("m", { name := "m", metric := some (MetricHandle.live 0),
                           importance := 2, «alias» := some "a2" })],
          aliasToName := [("a1", "m"), ("a2", "m")] } ∧
    ({ name := "m", metric := some (MetricHandle.live 0), importance := 2,
       «alias» := some "a2" } : RequestedMetric) ≠
      { name := "m", metric := some (MetricHandle.live 0), importance := 2,
        «alias» := some "a1" } := by
  decide

theorem parseStep_found_catalog (st : ParseState) (m : MetricRequest)
    (h0 : MetricHandle) (hf : assocFind st.catalog m.name = some h0) :
    (parseStep st m).1.catalog = st.catalog := by
  have hc : assocFind (ParseState.catalog { st with lookups := st.lookups + 1 })
      m.name = some h0 := hf
  simp only [parseStep, hc]
  simp

theorem parseStep_found_entry (st : ParseState) (m : MetricRequest)
    (st' : ParseState) (h0 : MetricHandle)
    (hf : assocFind st.catalog m.name = some h0)
    (hstep : parseStep st m = (st', none)) :
    assocFind st'.table.data m.name =
      some (RequestedMetric.make m.name (some h0) (some m.importance)
        m.«alias») := by
  have hc : assocFind (ParseState.catalog { st with lookups := st.lookups + 1 })
      m.name = some h0 := hf
  simp only [parseStep, hc] at hstep
  obtain ⟨hd, -⟩ := insertParsed_none_table _ _ _ _ hstep
  rw [hd]
  exact assocFind_assocUpdate_self _ _ _

/-- C7 (amended): duplicate-name resolution is not idempotent: whenever no
exception escapes, `parse` performs exactly one catalog query per request
(so a duplicated name is queried twice), and for a two-request batch whose
shared name is found in the catalog the second request's wrapper silently
overwrites the first table entry, with no rejection. -/
theorem parse_duplicate_name_overwrites :
    (∀ (cat : Catalog) (reqs : List MetricRequest),
      (∀ e, (parse cat reqs).result ≠ ParseResult.pyError e) →
      (parse cat reqs).lookups = reqs.length) ∧
    (∀ (cat : Catalog) (r1 r2 : MetricRequest) (h : MetricHandle)
      (table : RequestedMetricDict),
      r2.name = r1.name → assocFind cat r1.name = some h →
      (parse cat [r1, r2]).result = ParseResult.ok table →
      assocFind table.data r1.name =
        some (RequestedMetric.make r2.name (some h) (some r2.importance)
          r2.«alias»)) := by
  constructor
  · intro cat reqs hrun
    have hl := parse_noerror_loop cat reqs hrun
    cases hout : parseLoop (initState cat) reqs with
    | mk st1 e =>
        rw [hout] at hl
        simp only at hl
        subst hl
        rw [parse_lookups_eq, hout]
        have h2 := parseLoop_lookups reqs (initState cat) st1 hout
        simpa [initState] using h2
  · intro cat r1 r2 h table hname hfound hok
    obtain ⟨st', hloop, -, htab⟩ := parse_ok_elim _ _ _ hok
    subst htab
    simp only [parseLoop] at hloop
    split at hloop
    next st2 e heq1 => simp at hloop
    next st2 heq1 =>
      split at hloop
      next st3 e heq2 => simp at hloop
      next st3 heq2 =>
        injection hloop with hl1 hl2
        have hcat2 : st2.catalog = cat := by
          have h2 := parseStep_found_catalog (initState cat) r1 h hfound
          rw [heq1] at h2
          exact h2
        have hfound2 : assocFind st2.catalog r2.name = some h := by
          rw [hcat2, hname]
          exact hfound
        have hentry := parseStep_found_entry st2 r2 st3 h hfound2 heq2
        rw [← hl1, ← hname]
        exact hentry

/-- Witness for the amended C7 at the duplicate-name batch. -/
theorem parse_duplicate_name_overwrites_witness :
    (parse [("m", MetricHandle.live 0)]
      [{ name := "m", «alias» := some "a1" },
       { name := "m", «alias» := some "a2" }]).lookups =
      ([{ name := "m", «alias» := some "a1" },
        { name := "m", «alias» := some "a2" }] : List MetricRequest).length ∧
    assocFind
      ({ data := [("m", { name := "m", metric := some (MetricHandle.live 0),
                          importance := 2, «alias» := some "a2" })],
         aliasToName := [("a1", "m"), ("a2", "m")] } :
        RequestedMetricDict).data "m" =
      some (RequestedMetric.make "m" (some (MetricHandle.live 0)) (some 2)
        (some "a2")) :=
  ⟨parse_duplicate_name_overwrites.1 [("m", MetricHandle.live 0)]
    [{ name := "m", «alias» := some "a1" },
     { name := "m", «alias» := some "a2" }] (fun _ h => nomatch h),
   parse_duplicate_name_overwrites.2 [("m", MetricHandle.live 0)]
    { name := "m", «alias» := some "a1" }
    { name := "m", «alias» := some "a2" }
    (MetricHandle.live 0)
    { data := [("m", { name := "m", metric := some (MetricHandle.live 0),
                       importance := 2, «alias» := some "a2" })],
      aliasToName := [("a1", "m"), ("a2", "m")] }
    rfl rfl (by decide)⟩

/-- C8 counterexample: constructing a `MetricRequest` whose fallback is a
Python list succeeds (the namedtuple performs no validation), and the error
surfaces only later, during resolution, as the `_create_fallback_metric`
`ValueError` — refuting the claim of a construction-time failure. -/
theorem metricRequest_bad_fallback_counterexample :
    ({ name := "z", importance := 1, default_value := some PyValue.list } :
      MetricRequest).default_value = some PyValue.list ∧
    (parse ([] : Catalog)
      [{ name := "z", importance := 1,
         default_value := some PyValue.list }]).result =
      ParseResult.pyError fallbackValueError := by
  decide

/-- C8 (amended): `MetricRequest` construction performs no validation of
the fallback; a fallback that passes none of the isinstance checks
(non-negative int or bool, float, str) is rejected only at resolution
time: when the OPTIONAL request's metric is missing, `parse` raises the
`_create_fallback_metric` `ValueError`. -/
theorem parse_bad_fallback_resolution_error (cat : Catalog) (r : MetricRequest)
    (v : PyValue) (himp : r.importance = Importance.OPTIONAL)
    (hmiss : assocFind cat r.name = none) (hdv : r.default_value = some v)
    (hkind : fallbackKind v = none) :
    (parse cat [r]).result = ParseResult.pyError fallbackValueError := by
  have hc : assocFind
      (ParseState.catalog { initState cat with lookups := (initState cat).lookups + 1 })
      r.name = none := hmiss
  have hstep : parseStep (initState cat) r =
      stepMissingOptional
        { initState cat with lookups := (initState cat).lookups + 1 } r := by
    simp only [parseStep, hc, himp]
    simp
  have hcf : (createFallbackMetric
      (ParseState.catalog { initState cat with lookups := (initState cat).lookups + 1 })
      r).2 = .error fallbackValueError := by
    simp [createFallbackMetric, hdv, hkind]
  have hso : stepMissingOptional
      { initState cat with lookups := (initState cat).lookups + 1 } r =
      ({ initState cat with
          lookups := (initState cat).lookups + 1
          catalog := (createFallbackMetric
            (ParseState.catalog
              { initState cat with lookups := (initState cat).lookups + 1 })
            r).1 }, some fallbackValueError) := by
    simp only [stepMissingOptional]
    split
    next e heq =>
        rw [hcf] at heq
        injection heq with h2
        rw [h2]
    next fb heq =>
        rw [hcf] at heq
        exact absurd heq (by simp)
  simp only [parse, parseLoop]
  rw [hstep, hso]

/-- Witness for the amended C8 at a list-valued fallback. -/
theorem parse_bad_fallback_resolution_error_witness :
    (parse ([] : Catalog)
      [{ name := "z", importance := 1,
         default_value := some PyValue.list }]).result =
      ParseResult.pyError fallbackValueError :=
  parse_bad_fallback_resolution_error ([] : Catalog)
    { name := "z", importance := 1, default_value := some PyValue.list }
    PyValue.list (by decide) (by decide) (by decide) (by decide)
